import Mathlib

/-!
Shallow embedding of the S_Drive Netlify proxy function
(`netlify/functions/drive.js` and its variants) together with proofs of
the frozen specification claims.

Conventions of the embedding:
* Byte sequences and decoded strings are `List Nat` (bytes, respectively
  Unicode code points).
* A JavaScript `fetch` `Response` is modelled by its status and body; a
  thrown JavaScript error by its `name` and its `String(e)` rendering.
* The sequence of outcomes of the individual attempts made by
  `fetchWithRetry` (which in the program depend on the network) is passed
  in explicitly, one entry per loop iteration of the attempt budget.
* Mutable module state (the token cache) is passed as an explicit state
  record.
-/

namespace SDrive

/-! ### Responses, errors and fetch outcomes -/

/-- A fetch `Response`, reduced to the fields the program reads:
`status` and the text of the body. -/
structure Response where
  status : Nat
  body : String
deriving DecidableEq

/-- Model of `res.ok`: status in the inclusive range 200..299. -/
def respOk (r : Response) : Bool :=
  200 ≤ r.status && r.status < 300

/-- A thrown JavaScript error value: its `name` property and the result
of `String(e)`. -/
structure JsError where
  name : String
  text : String
deriving DecidableEq

/-- Outcome of one attempt inside `fetchWithRetry`: either
`fetchWithTimeout` returned a response, or it threw. -/
inductive FetchOutcome where
  | got (r : Response)
  | threw (e : JsError)
deriving DecidableEq

/-- Result of a whole `fetchWithRetry` call: it either returns a
response or throws an error. -/
inductive RetryResult where
  | ret (r : Response)
  | err (e : JsError)
deriving DecidableEq

/-- The `new Error("fetchWithRetry: unknown error")` thrown when the
loop body never ran and no error was recorded. -/
def unknownRetryError : JsError :=
  ⟨"Error", "Error: fetchWithRetry: unknown error"⟩

/-- Loop of `fetchWithRetry` (drive.js lines 107-118).  `res` and
`lastErr` model the mutable variables of the same names; the list holds
the outcome of each remaining attempt of the budget. -/
def retryGo (retryStatuses : List Nat) :
    List FetchOutcome → Option Response → Option JsError → RetryResult
  | [], some r, _ => .ret r
  | [], none, some e => .err e
  | [], none, none => .err unknownRetryError
  | .got r :: rest, _, lastErr =>
    if respOk r then .ret r
    else if retryStatuses.contains r.status then
      retryGo retryStatuses rest (some r) lastErr
    else .ret r
  | .threw e :: rest, res, _ => retryGo retryStatuses rest res (some e)

/-- Model of `fetchWithRetry` (drive.js lines 94-122): the attempt budget
is the length of `outcomes`, the outcome of attempt `i` is `outcomes[i]`. -/
def fetchWithRetry (retryStatuses : List Nat) (outcomes : List FetchOutcome) :
    RetryResult :=
  retryGo retryStatuses outcomes none none

/-- Default retryable statuses of the main variant (drive.js line 101). -/
def driveRetryStatuses : List Nat := [429, 500, 502, 503, 504]

/-- An attempt outcome is non-final when it does not cause an early
return of the loop: either the attempt threw, or it produced an
unsuccessful response whose status is retryable. -/
def nonFinal (retryStatuses : List Nat) : FetchOutcome → Prop
  | .got r => respOk r = false ∧ retryStatuses.contains r.status = true
  | .threw _ => True

instance (retryStatuses : List Nat) (o : FetchOutcome) :
    Decidable (nonFinal retryStatuses o) :=
  match o with
  | .got r =>
    inferInstanceAs (Decidable (respOk r = false ∧ retryStatuses.contains r.status = true))
  | .threw _ => .isTrue trivial

/-- First of two options that is `some`, preferring the left one. -/
def orFirst {α : Type} (a b : Option α) : Option α :=
  match a with
  | some x => some x
  | none => b

/-- Response received by the latest attempt that received one. -/
def lastGot : List FetchOutcome → Option Response
  | [] => none
  | .got r :: rest => orFirst (lastGot rest) (some r)
  | .threw _ :: rest => lastGot rest

/-- Error thrown by the latest attempt that threw. -/
def lastThrew : List FetchOutcome → Option JsError
  | [] => none
  | .got _ :: rest => lastThrew rest
  | .threw e :: rest => orFirst (lastThrew rest) (some e)

/-! ### Text decoding (drive.js lines 175-200, `decodeTextSmart`)

Byte sequences are `List Nat` with elements below 256; decoded strings
are `List Nat` of Unicode code points.  `Buffer.toString("utf8")` is the
WHATWG UTF-8 decoder with U+FFFD replacement on invalid input; it is
embedded as a step function consuming one minimal decoding unit,
iterated with a fuel argument.  Since every step consumes at least one
byte, a fuel equal to the input length never runs out. -/

/-- Continuation byte test: `0x80..0xBF`. -/
def isCont (c : Nat) : Bool := 0x80 ≤ c && c ≤ 0xBF

/-- One step of the WHATWG UTF-8 decoder: given the first byte `b` and
the remaining bytes, return the decoded code point (U+FFFD on a
decoding error) and the bytes not yet consumed.  Invalid continuation
bytes are not consumed (maximal-subpart replacement); truncated
sequences at end of input yield a single replacement. -/
def utf8Step (b : Nat) (rest : List Nat) : Nat × List Nat :=
  if b < 0x80 then (b, rest)
  else if b < 0xC2 then (0xFFFD, rest)
  else if b ≤ 0xDF then
    match rest with
    | [] => (0xFFFD, [])
    | c :: r2 => if isCont c then (b % 32 * 64 + c % 64, r2) else (0xFFFD, c :: r2)
  else if b ≤ 0xEF then
    match rest with
    | [] => (0xFFFD, [])
    | c :: r2 =>
      if (if b = 0xE0 then 0xA0 else 0x80) ≤ c && c ≤ (if b = 0xED then 0x9F else 0xBF) then
        match r2 with
        | [] => (0xFFFD, [])
        | d :: r3 =>
          if isCont d then (b % 16 * 4096 + c % 64 * 64 + d % 64, r3)
          else (0xFFFD, d :: r3)
      else (0xFFFD, c :: r2)
  else if b ≤ 0xF4 then
    match rest with
    | [] => (0xFFFD, [])
    | c :: r2 =>
      if (if b = 0xF0 then 0x90 else 0x80) ≤ c && c ≤ (if b = 0xF4 then 0x8F else 0xBF) then
        match r2 with
        | [] => (0xFFFD, [])
        | d :: r3 =>
          if isCont d then
            match r3 with
            | [] => (0xFFFD, [])
            | e :: r4 =>
              if isCont e then (b % 8 * 262144 + c % 64 * 4096 + d % 64 * 64 + e % 64, r4)
              else (0xFFFD, e :: r4)
          else (0xFFFD, d :: r3)
      else (0xFFFD, c :: r2)
  else (0xFFFD, rest)

/-- Iterated UTF-8 decoding with a fuel bound on the number of steps. -/
def utf8DecodeF : Nat → List Nat → List Nat
  | 0, _ => []
  | _ + 1, [] => []
  | fuel + 1, b :: rest =>
    let s := utf8Step b rest
    s.1 :: utf8DecodeF fuel s.2

/-- Model of `buf.toString("utf8")`: WHATWG UTF-8 decoding with
replacement.  The fuel `l.length` is always sufficient because every
step consumes at least one byte. -/
def utf8Decode (l : List Nat) : List Nat := utf8DecodeF l.length l

/-- Model of one byte of `iconv.decode(buf, "win1252")`: the
windows-1252 single-byte mapping (undefined bytes are mapped to the
corresponding C1 control characters, as iconv-lite does). -/
def win1252Byte (b : Nat) : Nat :=
  if b = 0x80 then 0x20AC else if b = 0x82 then 0x201A else if b = 0x83 then 0x192
  else if b = 0x84 then 0x201E else if b = 0x85 then 0x2026 else if b = 0x86 then 0x2020
  else if b = 0x87 then 0x2021 else if b = 0x88 then 0x2C6 else if b = 0x89 then 0x2030
  else if b = 0x8A then 0x160 else if b = 0x8B then 0x2039 else if b = 0x8C then 0x152
  else if b = 0x8E then 0x17D else if b = 0x91 then 0x2018 else if b = 0x92 then 0x2019
  else if b = 0x93 then 0x201C else if b = 0x94 then 0x201D else if b = 0x95 then 0x2022
  else if b = 0x96 then 0x2013 else if b = 0x97 then 0x2014 else if b = 0x98 then 0x2DC
  else if b = 0x99 then 0x2122 else if b = 0x9A then 0x161 else if b = 0x9B then 0x203A
  else if b = 0x9C then 0x153 else if b = 0x9E then 0x17E else if b = 0x9F then 0x178
  else b

/-- Model of `iconv.decode(buf, "win1252")`. -/
def win1252Decode (buf : List Nat) : List Nat := buf.map win1252Byte

/-- Model of `iconv.decode(buf, "utf16-le")` at the level of UTF-16
code units (JavaScript strings are code-unit sequences); a trailing odd
byte is dropped. -/
def utf16leDecode : List Nat → List Nat
  | lo :: hi :: rest => (lo + 256 * hi) :: utf16leDecode rest
  | _ => []

/-- Model of `iconv.decode(buf, "utf16-be")`, big-endian byte order. -/
def utf16beDecode : List Nat → List Nat
  | hi :: lo :: rest => (lo + 256 * hi) :: utf16beDecode rest
  | _ => []

/-- The UTF-8 byte-order-mark test of drive.js line 179:
`buf.length >= 3 && buf[0] === 0xef && buf[1] === 0xbb && buf[2] === 0xbf`. -/
def hasUtf8Bom : List Nat → Bool
  | b0 :: b1 :: b2 :: _ => b0 == 0xEF && b1 == 0xBB && b2 == 0xBF
  | _ => false

/-- The UTF-16 LE byte-order-mark test of drive.js line 184. -/
def hasUtf16leBom : List Nat → Bool
  | b0 :: b1 :: _ => b0 == 0xFF && b1 == 0xFE
  | _ => false

/-- The UTF-16 BE byte-order-mark test of drive.js line 189. -/
def hasUtf16beBom : List Nat → Bool
  | b0 :: b1 :: _ => b0 == 0xFE && b1 == 0xFF
  | _ => false

/-- Model of `decodeTextSmart` (drive.js lines 175-200): BOM-directed
decoding, then a UTF-8 attempt with windows-1252 fallback when the
attempt contains a replacement character (`utf8.includes("�")`). -/
def decodeTextSmart (buf : List Nat) : List Nat :=
  if hasUtf8Bom buf then utf8Decode (buf.drop 3)
  else if hasUtf16leBom buf then utf16leDecode (buf.drop 2)
  else if hasUtf16beBom buf then utf16beDecode (buf.drop 2)
  else if (utf8Decode buf).contains 0xFFFD then win1252Decode buf
  else utf8Decode buf

/-! ### Token cache (drive.js lines 128-152, `getAccessToken`)

The module-level mutable variables `cachedToken` and `cachedTokenExpMs`
are passed as an explicit state.  The environment secret and the
outcome of the credential/network interaction (JSON parsing of the
secret, `auth.getClient()`, `client.getAccessToken()`) are supplied by
an oracle record; `Except.error` models a throw. -/

/-- The mutable token cache: `cachedToken` (`none` models `null`) and
`cachedTokenExpMs`. -/
structure TokenState where
  cachedToken : Option String
  cachedTokenExpMs : Int
deriving DecidableEq

/-- The initial cache state (`cachedToken = null`, `cachedTokenExpMs = 0`). -/
def initialTokenState : TokenState := ⟨none, 0⟩

/-- Environment and network oracle for `getAccessToken`: the
`GOOGLE_SERVICE_ACCOUNT_JSON` variable (`none` models unset), and the
outcome of the auth interaction — `Except.error e` for a throw inside
the credential parsing or token fetch, `Except.ok t` for
`tokenResp?.token` having value `t` (the empty string models a missing
or empty token property). -/
structure TokenEnv where
  secret : Option String
  fetchOutcome : Except JsError String

/-- Result of one `getAccessToken` call: the returned token or thrown
error, the state of the cache afterwards, and whether the identity
provider was contacted. -/
structure TokenCallResult where
  result : Except JsError String
  state : TokenState
  networkCalled : Bool

/-- The cache-miss path of `getAccessToken` (drive.js lines 135-151):
load the secret, fetch a fresh token, cache it with expiry `now`
plus 55 minutes. -/
def getFreshToken (env : TokenEnv) (now : Int) (st : TokenState) : TokenCallResult :=
  match env.secret with
  | none => ⟨.error ⟨"Error", "Error: GOOGLE_SERVICE_ACCOUNT_JSON manquant"⟩, st, false⟩
  | some _ =>
    match env.fetchOutcome with
    | .error e => ⟨.error e, st, true⟩
    | .ok t =>
      if t = "" then ⟨.error ⟨"Error", "Error: Token Drive vide"⟩, st, true⟩
      else ⟨.ok t, ⟨some t, now + 55 * 60 * 1000⟩, true⟩

/-- Model of `getAccessToken` (drive.js lines 131-152): return the
cached token while the current time is more than 30 seconds before the
cached expiry (`cachedToken && now < cachedTokenExpMs - 30_000`),
otherwise fetch a fresh token. -/
def getAccessToken (env : TokenEnv) (now : Int) (st : TokenState) : TokenCallResult :=
  match st.cachedToken with
  | some tok =>
    if tok ≠ "" ∧ now < st.cachedTokenExpMs - 30000 then ⟨.ok tok, st, false⟩
    else getFreshToken env now st
  | none => getFreshToken env now st

/-! ### Error classification and the LIST pagination loop -/

/-- Character-list test: does `s` start with `pat`. -/
def charsStartWith : List Char → List Char → Bool
  | [], _ => true
  | _ :: _, [] => false
  | p :: ps, c :: cs => p = c && charsStartWith ps cs

/-- Character-list test: does the list contain `pat` as a contiguous
run (model of `String.prototype.includes`). -/
def charsHaveSub (pat : List Char) : List Char → Bool
  | [] => pat.isEmpty
  | c :: cs => charsStartWith pat (c :: cs) || charsHaveSub pat cs

/-- Model of `isAbortError` (drive.js lines 80-82):
`e?.name === "AbortError" || String(e).includes("AbortError")`. -/
def isAbortError (e : JsError) : Bool :=
  e.name == "AbortError" || charsHaveSub "AbortError".data e.text.data

/-- One parsed page of the LIST response: `data.files` (entries of an
opaque type `α`) and `data.nextPageToken`. -/
structure Page (α : Type) where
  files : List α
  nextPageToken : Option String
deriving DecidableEq

/-- Default page used for indexing past the supplied page sequence. -/
def dfltPage {α : Type} : Page α := ⟨[], none⟩

/-- Outcome of fetching one page, at page granularity: the retrying
fetch threw, or returned a non-ok status, or delivered a parsed page. -/
inductive ListFetch (α : Type) where
  | threw (e : JsError)
  | httpErr (status : Nat)
  | page (p : Page α)
deriving DecidableEq

/-- Result of the LIST branch of the handler: the accumulated entries
on success, the passed-through upstream status on an unsuccessful
response, or the caught thrown error. -/
inductive ListResult (α : Type) where
  | success (files : List α)
  | upstreamError (status : Nat)
  | caught (e : JsError)
deriving DecidableEq

/-- The pagination loop of the LIST branch (drive.js lines 351-383):
fetch at most `fuel` pages, accumulate each page's entries, stop when a
page carries no `nextPageToken`; an unsuccessful response returns its
status at once, and a thrown error escapes to the surrounding catch. -/
def listGo {α : Type} (fetchPage : Nat → ListFetch α) :
    Nat → Nat → List α → ListResult α
  | 0, _, acc => .success acc
  | fuel + 1, i, acc =>
    match fetchPage i with
    | .threw e => .caught e
    | .httpErr s => .upstreamError s
    | .page p =>
      match p.nextPageToken with
      | none => .success (acc ++ p.files)
      | some _ => listGo fetchPage fuel (i + 1) (acc ++ p.files)

/-- The hard page ceiling `maxPages = 25` (drive.js line 345). -/
def maxPages : Nat := 25

/-- Model of the LIST branch of the handler (drive.js lines 343-393):
run the pagination loop from page 0 with an empty accumulator. -/
def handleList {α : Type} (fetchPage : Nat → ListFetch α) : ListResult α :=
  listGo fetchPage maxPages 0 []

/-- Status code of the response produced from a `ListResult`: 200 with
the `{files}` JSON body on success, the upstream status on an
unsuccessful upstream response, and 504/500 from the surrounding catch
for a thrown abort/other error (drive.js lines 385-393 and 454-469). -/
def listResponseStatus {α : Type} : ListResult α → Nat
  | .success _ => 200
  | .upstreamError s => s
  | .caught e => if isAbortError e then 504 else 500

/-- The 26-page upstream used as a counterexample for the page ceiling:
page `j` holds the single entry `j`, and every page except the last
carries a next-page token. -/
def pages26 : List (Page Nat) :=
  (List.range 26).map (fun j => ⟨[j], if j = 25 then none else some "t"⟩)

/-- A well-formed 3-page upstream with 5 entries in total, used as a
concrete witness for the pagination claim. -/
def pages3 : List (Page Nat) :=
  [⟨[1, 2], some "a"⟩, ⟨[3], some "b"⟩, ⟨[4, 5], none⟩]

/-! ### CORS (drive.js lines 23-63)

`DOMAINS_ALLOWED` is passed as the raw environment string (empty when
unset); header maps are association lists looked up by first match,
mirroring object-spread construction with distinct keys. -/

/-- Insertion-ordered deduplication, the observable behaviour of
`Array.from(new Set(list))`. -/
def dedupAux : List String → List String → List String
  | [], _ => []
  | x :: xs, seen =>
    if x ∈ seen then dedupAux xs seen else x :: dedupAux xs (x :: seen)

/-- Model of `Array.from(new Set(list))`. -/
def jsSetDedup (l : List String) : List String := dedupAux l []

/-- The hardcoded origin allow-list of the main variant
(drive.js lines 24-34). -/
def hardcodedOrigins : List String :=
  ["https://smes21540.github.io",
   "https://smes21540.netlify.app",
   "https://app.tondomaine.fr",
   "https://www.tondomaine.fr",
   "http://localhost:5173",
   "http://localhost:3000"]

/-- White-space test used by the trim model. -/
def isJsSpace (c : Char) : Bool :=
  c = ' ' || c = '\t' || c = '\n' || c = '\r'

/-- Character-level model of `String.prototype.trim`: drop leading and
trailing white space. -/
def trimChars (l : List Char) : List Char :=
  ((l.dropWhile isJsSpace).reverse.dropWhile isJsSpace).reverse

/-- Character-level model of `String.prototype.split(",")`:
`splitCommaAux cs cur` splits `cs` with `cur` the reversed current
field. -/
def splitCommaAux : List Char → List Char → List (List Char)
  | [], cur => [cur.reverse]
  | c :: cs, cur =>
    if c = ',' then cur.reverse :: splitCommaAux cs []
    else splitCommaAux cs (c :: cur)

/-- The extra origins parsed from `DOMAINS_ALLOWED`: split on commas,
trim, drop empty entries (drive.js lines 36-39). -/
def parseExtraOrigins (env : String) : List String :=
  (((splitCommaAux env.data []).map (fun f => String.mk (trimChars f))).filter
    (fun s => s ≠ ""))

/-- Model of `getAllowedOrigins` (drive.js lines 23-42). -/
def getAllowedOrigins (env : String) : List String :=
  jsSetDedup (hardcodedOrigins ++ parseExtraOrigins env)

/-- Model of `pickAllowOrigin` (drive.js lines 47-52): an absent or
empty `Origin` header yields the wildcard; a listed origin is echoed;
anything else yields `null` (`none`). -/
def pickAllowOrigin (env originHeader : String) : Option String :=
  if originHeader = "" then some "*"
  else if originHeader ∈ getAllowedOrigins env then some originHeader
  else none

/-- The three base CORS headers (drive.js lines 55-59). -/
def corsBase : List (String × String) :=
  [("Access-Control-Allow-Methods", "GET, POST, OPTIONS"),
   ("Access-Control-Allow-Headers", "Content-Type, Authorization, X-Requested-With"),
   ("Access-Control-Max-Age", "600")]

/-- Model of `corsHeaders` (drive.js lines 54-63): the allow-origin
header is added only for a truthy `allowOrigin` (in JavaScript the
empty string is falsy too). -/
def corsHeaders (allowOrigin : Option String) : List (String × String) :=
  match allowOrigin with
  | none => corsBase
  | some o => if o = "" then corsBase else corsBase ++ [("Access-Control-Allow-Origin", o)]

/-- First-match lookup in a header association list. -/
def findHeader (hs : List (String × String)) (k : String) : Option String :=
  (hs.find? (fun p => p.1 == k)).map (fun p => p.2)

/-! ### Handler slices: GET download and POST upload

Only the part of the handler after a successfully acquired token is
modelled, with the retrying upstream call driven by an explicit outcome
sequence.  A thrown error from `fetchWithRetry` reaches the
surrounding try/catch of the respective branch. -/

/-- An outbound response envelope: status code and body. -/
structure HttpOut where
  status : Nat
  body : String
deriving DecidableEq

/-- The fields the upload branch reads from the parsed upstream JSON:
`out.id` (`none` models an absent `id` property). -/
structure UploadOut where
  id : Option String

/-- JSON error body `{"error": msg}`. -/
def jsonError (msg : String) : String :=
  "\x7b\"error\":\"" ++ msg ++ "\"\x7d"

/-- JSON error body `{"error": msg, "status": s}`. -/
def jsonErrorStatus (msg : String) (s : Nat) : String :=
  "\x7b\"error\":\"" ++ msg ++ "\",\"status\":" ++ toString s ++ "\x7d"

/-- The body `JSON.stringify({ success: true, id: out.id })` of the
upload success response (drive.js line 319): an `undefined` id is
dropped by the serializer (identifiers contain no characters needing
JSON escaping). -/
def uploadBody : Option String → String
  | some i => "\x7b\"success\":true,\"id\":\"" ++ i ++ "\"\x7d"
  | none => "\x7b\"success\":true\x7d"

/-- Model of the POST upload branch of the handler after the upstream
call (drive.js lines 291-328): on an unsuccessful response the upstream
status is passed through; on success the upstream body is parsed
(`parse`, `none` modelling a `JSON.parse` throw) and `{success, id}`
returned; a thrown error is caught and mapped to 500 unconditionally. -/
def handleUpload (parse : String → Option UploadOut)
    (outcomes : List FetchOutcome) : HttpOut :=
  match fetchWithRetry driveRetryStatuses outcomes with
  | .ret r =>
    if respOk r then
      ⟨200, uploadBody (((parse r.body).getD ⟨none⟩).id)⟩
    else ⟨r.status, jsonErrorStatus "Erreur upload Drive" r.status⟩
  | .err _ => ⟨500, jsonError "Erreur interne upload"⟩

/-- Model of the GET download branch of the handler around its upstream
call (drive.js lines 402-416 and the catch at lines 454-469): an
unsuccessful response passes the upstream status through; a successful
response is forwarded with status 200 (its body post-processing is the
text-decoding pipeline modelled by `decodeTextSmart`); a thrown abort
error is caught and mapped to 504, any other thrown error to 500. -/
def handleDownload (outcomes : List FetchOutcome) : HttpOut :=
  match fetchWithRetry driveRetryStatuses outcomes with
  | .ret r =>
    if respOk r then ⟨200, r.body⟩
    else ⟨r.status, jsonErrorStatus "Erreur Google Drive (download)" r.status⟩
  | .err e =>
    if isAbortError e then ⟨504, jsonError "Timeout Google Drive"⟩
    else ⟨500, jsonError "Erreur interne proxy Drive"⟩

/-- A typical abort error produced by an `AbortController` timeout. -/
def abortError : JsError :=
  ⟨"AbortError", "AbortError: This operation was aborted"⟩

theorem orFirst_none {α : Type} (a : Option α) : orFirst a none = a := by
  cases a <;> rfl

/-- On a run in which every attempt is non-final, the loop of
`fetchWithRetry` returns the response of the latest attempt that
received one (falling back to the initial `res`), and only when no
response at all was received does it throw the latest error. -/
theorem retryGo_exhaust (retryStatuses : List Nat) (outcomes : List FetchOutcome)
    (res : Option Response) (lastErr : Option JsError)
    (h : ∀ o ∈ outcomes, nonFinal retryStatuses o) :
    retryGo retryStatuses outcomes res lastErr =
      match orFirst (lastGot outcomes) res with
      | some r => .ret r
      | none =>
        match orFirst (lastThrew outcomes) lastErr with
        | some e => .err e
        | none => .err unknownRetryError := by
  induction outcomes generalizing res lastErr with
  | nil =>
    cases res with
    | some r => rfl
    | none => cases lastErr <;> rfl
  | cons o rest ih =>
    cases o with
    | got r =>
      have hr : nonFinal retryStatuses (.got r) := h _ (List.mem_cons_self _ _)
      obtain ⟨h1, h2⟩ := hr
      have hrec := ih (some r) lastErr (fun o ho => h o (List.mem_cons_of_mem _ ho))
      simp only [retryGo, h1, h2, Bool.false_eq_true, if_false, if_true, lastGot]
      rw [hrec]
      cases hg : lastGot rest <;> simp [orFirst]
    | threw e =>
      have hrec := ih res (some e) (fun o ho => h o (List.mem_cons_of_mem _ ho))
      simp only [retryGo, lastGot, lastThrew]
      rw [hrec]
      cases hg : lastGot rest <;> cases res <;> cases ht : lastThrew rest <;>
        simp [orFirst]

/-- C1 (amended): after exhausting the attempt budget (every attempt
either threw or received a retryable unsuccessful response),
`fetchWithRetry` returns the response of the most recent attempt that
received one, as-is, even when later attempts threw; the last error is
propagated only when no attempt received a response; with an empty
budget a generic executor error is thrown. -/
theorem c1_amended (retryStatuses : List Nat) (outcomes : List FetchOutcome)
    (h : ∀ o ∈ outcomes, nonFinal retryStatuses o) :
    fetchWithRetry retryStatuses outcomes =
      match lastGot outcomes with
      | some r => .ret r
      | none =>
        match lastThrew outcomes with
        | some e => .err e
        | none => .err unknownRetryError := by
  have := retryGo_exhaust retryStatuses outcomes none none h
  rw [fetchWithRetry, this, orFirst_none, orFirst_none]

/-- Witness for C1 (amended): a run whose first attempt receives a
retryable 500 and whose second (last) attempt throws returns the 500
response. -/
theorem c1_amended_witness :
    fetchWithRetry driveRetryStatuses
      [.got ⟨500, "upstream error body"⟩,
       .threw ⟨"TypeError", "TypeError: fetch failed"⟩] =
      .ret ⟨500, "upstream error body"⟩ := by
  have h := c1_amended driveRetryStatuses
    [.got ⟨500, "upstream error body"⟩,
     .threw ⟨"TypeError", "TypeError: fetch failed"⟩] (by decide)
  simpa [lastGot, lastThrew, orFirst] using h

/-- Counterexample to C1 as stated: on a budget of two attempts where
the first receives a retryable 500 response and the second (the last)
throws a network error, the executor does not propagate the error of
the last attempt: it returns the earlier 500 response. -/
theorem c1_counterexample :
    fetchWithRetry driveRetryStatuses
      [.got ⟨500, "upstream error body"⟩,
       .threw ⟨"TypeError", "TypeError: fetch failed"⟩] ≠
      .err ⟨"TypeError", "TypeError: fetch failed"⟩ ∧
    fetchWithRetry driveRetryStatuses
      [.got ⟨500, "upstream error body"⟩,
       .threw ⟨"TypeError", "TypeError: fetch failed"⟩] =
      .ret ⟨500, "upstream error body"⟩ := by
  constructor
  · decide
  · decide

/-! ### Theorems about the text decoder -/

theorem utf8Step_rest_le (b : Nat) (rest : List Nat) :
    (utf8Step b rest).2.length ≤ rest.length := by
  unfold utf8Step
  repeat' split
  all_goals simp_all
  all_goals omega

theorem utf8Step_fst_le (b : Nat) (rest : List Nat) :
    (utf8Step b rest).1 ≤ 0x10FFFF := by
  unfold utf8Step
  repeat' split
  all_goals simp_all [isCont]
  all_goals omega

theorem utf8DecodeF_length : ∀ (fuel : Nat) (l : List Nat),
    (utf8DecodeF fuel l).length ≤ l.length := by
  intro fuel
  induction fuel with
  | zero => intro l; simp [utf8DecodeF]
  | succ n ih =>
    intro l
    cases l with
    | nil => simp [utf8DecodeF]
    | cons b rest =>
      have h1 := ih (utf8Step b rest).2
      have h2 := utf8Step_rest_le b rest
      simp only [utf8DecodeF, List.length_cons]
      omega

theorem utf8DecodeF_le : ∀ (fuel : Nat) (l : List Nat),
    ∀ x ∈ utf8DecodeF fuel l, x ≤ 0x10FFFF := by
  intro fuel
  induction fuel with
  | zero => intro l x hx; simp [utf8DecodeF] at hx
  | succ n ih =>
    intro l x hx
    cases l with
    | nil => simp [utf8DecodeF] at hx
    | cons b rest =>
      simp only [utf8DecodeF, List.mem_cons] at hx
      rcases hx with h | h
      · exact h ▸ utf8Step_fst_le b rest
      · exact ih _ x h

theorem utf8Decode_length (l : List Nat) : (utf8Decode l).length ≤ l.length :=
  utf8DecodeF_length l.length l

theorem utf8Decode_le (l : List Nat) : ∀ x ∈ utf8Decode l, x ≤ 0x10FFFF :=
  utf8DecodeF_le l.length l

set_option maxRecDepth 2000 in
theorem win1252Byte_le (b : Nat) (h : b < 256) : win1252Byte b ≤ 0x10FFFF :=
  (by decide : ∀ b, b < 256 → win1252Byte b ≤ 0x10FFFF) b h

theorem utf16leDecode_length : ∀ l : List Nat, (utf16leDecode l).length ≤ l.length := by
  intro l
  induction l using utf16leDecode.induct with
  | case1 lo hi rest ih => simp only [utf16leDecode, List.length_cons]; omega
  | case2 l hl => cases l with
    | nil => simp [utf16leDecode]
    | cons a t =>
      cases t with
      | nil => simp [utf16leDecode]
      | cons a2 t2 => exact absurd rfl (hl a a2 t2)

theorem utf16leDecode_le (l : List Nat) (h : ∀ b ∈ l, b < 256) :
    ∀ x ∈ utf16leDecode l, x ≤ 0x10FFFF := by
  induction l using utf16leDecode.induct with
  | case1 lo hi rest ih =>
    intro x hx
    simp only [utf16leDecode, List.mem_cons] at hx
    rcases hx with h1 | h1
    · have hlo := h lo (by simp)
      have hhi := h hi (by simp)
      omega
    · exact ih (fun b hb => h b (by simp [hb])) x h1
  | case2 l hl => intro x hx; simp [utf16leDecode, hl] at hx

theorem utf16beDecode_length : ∀ l : List Nat, (utf16beDecode l).length ≤ l.length := by
  intro l
  induction l using utf16beDecode.induct with
  | case1 hi lo rest ih => simp only [utf16beDecode, List.length_cons]; omega
  | case2 l hl => cases l with
    | nil => simp [utf16beDecode]
    | cons a t =>
      cases t with
      | nil => simp [utf16beDecode]
      | cons a2 t2 => exact absurd rfl (hl a a2 t2)

theorem utf16beDecode_le (l : List Nat) (h : ∀ b ∈ l, b < 256) :
    ∀ x ∈ utf16beDecode l, x ≤ 0x10FFFF := by
  induction l using utf16beDecode.induct with
  | case1 hi lo rest ih =>
    intro x hx
    simp only [utf16beDecode, List.mem_cons] at hx
    rcases hx with h1 | h1
    · have hhi := h hi (by simp)
      have hlo := h lo (by simp)
      omega
    · exact ih (fun b hb => h b (by simp [hb])) x h1
  | case2 l hl => intro x hx; simp [utf16beDecode, hl] at hx

/-- C7: for every byte sequence beginning with the UTF-8 byte-order
mark EF BB BF, `decodeTextSmart` returns the UTF-8 decoding of the
remaining bytes, with the BOM stripped. -/
theorem c7_bom_strip (rest : List Nat) :
    decodeTextSmart (0xEF :: 0xBB :: 0xBF :: rest) = utf8Decode rest := by
  simp [decodeTextSmart, hasUtf8Bom]

/-- C2: for every byte sequence that does not begin with a byte-order
mark, if its UTF-8 decoding has zero replacement characters then
`decodeTextSmart` returns exactly that UTF-8 decoding, and if the UTF-8
decoding contains at least one replacement character it returns the
windows-1252 decoding of the full sequence instead. -/
theorem c2_utf8_fallback (buf : List Nat)
    (h8 : hasUtf8Bom buf = false)
    (hle : hasUtf16leBom buf = false)
    (hbe : hasUtf16beBom buf = false) :
    ((utf8Decode buf).count 0xFFFD = 0 → decodeTextSmart buf = utf8Decode buf) ∧
    (1 ≤ (utf8Decode buf).count 0xFFFD → decodeTextSmart buf = win1252Decode buf) := by
  constructor
  · intro hc
    have hm : (0xFFFD : Nat) ∉ utf8Decode buf := List.count_eq_zero.mp hc
    simp [decodeTextSmart, h8, hle, hbe, hm]
  · intro hc
    have hm : (0xFFFD : Nat) ∈ utf8Decode buf := by
      by_contra hn
      rw [← List.count_eq_zero] at hn
      omega
    simp [decodeTextSmart, h8, hle, hbe, hm]

/-- Witness for C2: the windows-1252 bytes of a text with an accented
letter (0xE9) are invalid UTF-8, so the decoder falls back and maps
0xE9 to the code point U+00E9. -/
theorem c2_utf8_fallback_witness :
    decodeTextSmart [0x73, 0x6D, 0xE9, 0x73] = [0x73, 0x6D, 0xE9, 0x73] := by
  have h := (c2_utf8_fallback [0x73, 0x6D, 0xE9, 0x73]
    (by decide) (by decide) (by decide)).2 (by decide)
  rw [h]
  decide

/-- C8: for every byte sequence, of any length and contents, the text
decoding function terminates with a result: a string of Unicode code
units (every element in Unicode range) whose length never exceeds the
input length.  Undecodable inputs flow through the replacement-based
decoders rather than raising an error. -/
theorem c8_decode_total (buf : List Nat) (h : ∀ b ∈ buf, b < 256) :
    (∀ c ∈ decodeTextSmart buf, c ≤ 0x10FFFF) ∧
    (decodeTextSmart buf).length ≤ buf.length := by
  unfold decodeTextSmart
  split_ifs with h1 h2 h3 h4
  · exact ⟨utf8Decode_le _, (utf8Decode_length _).trans (by simp)⟩
  · refine ⟨utf16leDecode_le _ (fun b hb => h b (List.drop_subset _ _ hb)), ?_⟩
    exact (utf16leDecode_length _).trans (by simp)
  · refine ⟨utf16beDecode_le _ (fun b hb => h b (List.drop_subset _ _ hb)), ?_⟩
    exact (utf16beDecode_length _).trans (by simp)
  · refine ⟨?_, by simp [win1252Decode]⟩
    intro c hc
    obtain ⟨b, hb, rfl⟩ := List.mem_map.mp hc
    exact win1252Byte_le b (h b hb)
  · exact ⟨utf8Decode_le _, utf8Decode_length _⟩

/-- Witness for C8: a mixed sequence (an invalid UTF-8 byte between
ASCII bytes) decodes to in-range code points without error. -/
theorem c8_decode_total_witness :
    (∀ c ∈ decodeTextSmart [0x41, 0xFF, 0x42], c ≤ 0x10FFFF) ∧
    (decodeTextSmart [0x41, 0xFF, 0x42]).length ≤ 3 :=
  c8_decode_total [0x41, 0xFF, 0x42] (by decide)

/-! ### Theorems about LIST pagination -/

/-- When the pages from index `i` on are well formed (every fetch
succeeds, every page except the last carries a token, the last page
carries none), the pagination loop accumulates, in order, the entries
of the first `fuel` of those pages. -/
theorem listGo_spec {α : Type} (ps : List (Page α)) (fetchPage : Nat → ListFetch α) :
    ∀ (fuel i : Nat) (acc : List α),
    (∀ j, j < ps.length → fetchPage (i + j) = .page (ps.getD j dfltPage)) →
    (∀ j, j + 1 < ps.length → ((ps.getD j dfltPage).nextPageToken).isSome = true) →
    (ps ≠ [] → (ps.getD (ps.length - 1) dfltPage).nextPageToken = none) →
    ps ≠ [] →
    listGo fetchPage fuel i acc =
      .success (acc ++ ((ps.take fuel).map Page.files).flatten) := by
  induction ps with
  | nil => intro fuel i acc _ _ _ hne; exact absurd rfl hne
  | cons p rest ih =>
    intro fuel i acc hfetch htoks hlast _
    cases fuel with
    | zero => simp [listGo]
    | succ f =>
      have h0 : fetchPage i = .page p := by
        have := hfetch 0 (by simp)
        simpa using this
      cases hrest : rest with
      | nil =>
        have hnone : p.nextPageToken = none := by
          have := hlast (by simp)
          simpa [hrest] using this
        simp [listGo, h0, hnone, hrest]
      | cons r rs =>
        have hsome : (p.nextPageToken).isSome = true := by
          have := htoks 0 (by simp [hrest])
          simpa using this
        obtain ⟨t, ht⟩ := Option.isSome_iff_exists.mp hsome
        have hrec := ih f (i + 1) (acc ++ p.files)
          (by
            intro j hj
            have := hfetch (j + 1) (by simpa using Nat.succ_lt_succ hj)
            simpa [Nat.add_assoc, Nat.add_comm 1 j] using this)
          (by
            intro j hj
            have := htoks (j + 1) (by simpa using Nat.succ_lt_succ hj)
            simpa using this)
          (by
            intro hne2
            have hlen : rest.length - 1 + 1 = rest.length := by
              cases rest with
              | nil => exact absurd rfl (hrest ▸ hne2)
              | cons a b => simp
            have := hlast (by simp)
            simp only [List.length_cons, Nat.add_sub_cancel] at this
            rw [← hlen] at this
            simpa using this)
          (by simp [hrest])
        rw [hrest] at *
        simp only [listGo, h0, ht]
        rw [hrec]
        simp [List.flatten, List.append_assoc]

/-- Counterexample to C4 as stated: against a well-formed upstream of
26 pages (each page `j` holding the single entry `j`, all but the last
carrying a next-page token) in which every fetch succeeds, the handler
does not return the concatenation of all 26 pages: the hard ceiling of
25 pages stops the loop and only the first 25 entries are returned. -/
theorem c4_counterexample :
    (∀ j, j < 25 → ((pages26.getD j dfltPage).nextPageToken).isSome = true) ∧
    (pages26.getD (pages26.length - 1) dfltPage).nextPageToken = none ∧
    handleList (fun i => .page (pages26.getD i dfltPage)) ≠
      .success ((pages26.map Page.files).flatten) ∧
    handleList (fun i => .page (pages26.getD i dfltPage)) =
      .success (List.range 25) := by
  refine ⟨by decide, by decide, by decide, by decide⟩

/-- C4 (amended): for every upstream page sequence of at most 25 pages
(the hard ceiling) in which every page fetch succeeds, every page but
the last carries a next-page token and the last carries none, the LIST
branch returns a success response — rendered with status 200 — whose
entries are the concatenation of all pages' entries, in upstream order,
each entry exactly once. -/
theorem c4_amended {α : Type} (ps : List (Page α)) (fetchPage : Nat → ListFetch α)
    (hfetch : ∀ j, j < ps.length → fetchPage j = .page (ps.getD j dfltPage))
    (htoks : ∀ j, j + 1 < ps.length → ((ps.getD j dfltPage).nextPageToken).isSome = true)
    (hlast : ps ≠ [] → (ps.getD (ps.length - 1) dfltPage).nextPageToken = none)
    (hne : ps ≠ [])
    (hlen : ps.length ≤ maxPages) :
    handleList fetchPage = .success ((ps.map Page.files).flatten) ∧
    listResponseStatus (handleList fetchPage) = 200 := by
  have h := listGo_spec ps fetchPage maxPages 0 []
    (by intro j hj; simpa using hfetch j hj) htoks hlast hne
  rw [handleList, h, List.take_of_length_le hlen]
  simp [listResponseStatus]

/-- The 3-page upstream used as the witness for C4 (amended). -/
theorem c4_amended_witness :
    handleList (fun i => ListFetch.page (pages3.getD i dfltPage)) =
      .success [1, 2, 3, 4, 5] := by
  have hb : ∀ j, j < 2 → ((pages3.getD j dfltPage).nextPageToken).isSome = true := by
    decide
  have h := (c4_amended pages3 (fun i => .page (pages3.getD i dfltPage))
    (fun j _ => rfl)
    (fun j hj => hb j (by simp [pages3] at hj; omega))
    (fun _ => by decide) (by decide) (by decide)).1
  rw [h]
  decide

/-! ### Theorems about the token cache -/

/-- C3: when the cache holds token `T` with expiry `E`, a call at time
`t < E - 30s` returns the identical token `T` with no network call and
the cache unchanged; a call at `t ≥ E - 30s` whose credential secret is
present and whose fetch yields a fresh non-empty token `T2` contacts
the provider, caches `T2` with expiry `t + 55` minutes, and returns
`T2`. -/
theorem c3_token_cache (env : TokenEnv) (t E : Int) (T : String) (hT : T ≠ "") :
    (t < E - 30000 →
      getAccessToken env t ⟨some T, E⟩ = ⟨.ok T, ⟨some T, E⟩, false⟩) ∧
    (t ≥ E - 30000 → ∀ s T2, env.secret = some s → env.fetchOutcome = .ok T2 → T2 ≠ "" →
      getAccessToken env t ⟨some T, E⟩ =
        ⟨.ok T2, ⟨some T2, t + 55 * 60 * 1000⟩, true⟩) := by
  constructor
  · intro ht
    simp [getAccessToken, hT, ht]
  · intro ht s T2 hs hf hT2
    have hnot : ¬(T ≠ "" ∧ t < E - 30000) := by
      rintro ⟨-, h2⟩
      omega
    simp [getAccessToken, hnot, getFreshToken, hs, hf, hT2]

/-- Witness for C3: with expiry 1000000, a call at time 0 returns the
cached token with no network call, and a call at time 999999 fetches
and caches a fresh token with expiry 999999 + 3300000. -/
theorem c3_token_cache_witness :
    getAccessToken ⟨some "secret", .ok "fresh"⟩ 0 ⟨some "tok", 1000000⟩ =
      ⟨.ok "tok", ⟨some "tok", 1000000⟩, false⟩ ∧
    getAccessToken ⟨some "secret", .ok "fresh"⟩ 999999 ⟨some "tok", 1000000⟩ =
      ⟨.ok "fresh", ⟨some "fresh", 999999 + 55 * 60 * 1000⟩, true⟩ := by
  constructor
  · exact (c3_token_cache ⟨some "secret", .ok "fresh"⟩ 0 1000000 "tok"
      (by decide)).1 (by decide)
  · exact (c3_token_cache ⟨some "secret", .ok "fresh"⟩ 999999 1000000 "tok"
      (by decide)).2 (by decide) "secret" "fresh" rfl rfl (by decide)

/-! ### Theorems about CORS -/

theorem mem_of_mem_dedupAux :
    ∀ (l seen : List String) (x : String), x ∈ dedupAux l seen → x ∈ l := by
  intro l
  induction l with
  | nil => intro seen x hx; simp [dedupAux] at hx
  | cons a as ih =>
    intro seen x hx
    by_cases ha : a ∈ seen
    · simp only [dedupAux, if_pos ha] at hx
      exact List.mem_cons_of_mem _ (ih _ _ hx)
    · simp only [dedupAux, if_neg ha] at hx
      rcases List.mem_cons.mp hx with h | h
      · exact h ▸ List.mem_cons_self _ _
      · exact List.mem_cons_of_mem _ (ih _ _ h)

theorem mem_of_mem_jsSetDedup (l : List String) (x : String)
    (h : x ∈ jsSetDedup l) : x ∈ l :=
  mem_of_mem_dedupAux l [] x h

/-- The empty string is never in the configured allow-list: it is not
hardcoded, and `DOMAINS_ALLOWED` entries are filtered for emptiness. -/
theorem empty_notin_allowed (env : String) : "" ∉ getAllowedOrigins env := by
  intro h
  have h2 := mem_of_mem_jsSetDedup _ _ h
  rcases List.mem_append.mp h2 with h3 | h3
  · simp [hardcodedOrigins] at h3
  · have := (List.mem_filter.mp h3).2
    simp at this

theorem findHeader_corsBase_acao :
    findHeader corsBase "Access-Control-Allow-Origin" = none := by decide

theorem findHeader_with_acao (o : String) :
    findHeader (corsBase ++ [("Access-Control-Allow-Origin", o)])
      "Access-Control-Allow-Origin" = some o := by
  have e1 : (("Access-Control-Allow-Methods" : String) ==
    "Access-Control-Allow-Origin") = false := by decide
  have e2 : (("Access-Control-Allow-Headers" : String) ==
    "Access-Control-Allow-Origin") = false := by decide
  have e3 : (("Access-Control-Max-Age" : String) ==
    "Access-Control-Allow-Origin") = false := by decide
  simp [findHeader, corsBase, List.find?, e1, e2, e3]

/-- Counterexample to C5 as stated: a request without an `Origin`
header (modelled as the empty string, which is not in the allow-list)
still receives an `Access-Control-Allow-Origin` header, with the
wildcard value. -/
theorem c5_counterexample :
    findHeader (corsHeaders (pickAllowOrigin "" ""))
      "Access-Control-Allow-Origin" = some "*" ∧
    "" ∉ getAllowedOrigins "" := by
  exact ⟨by decide, by decide⟩

/-- C5 (amended): for every inbound request carrying a non-empty
`Origin` header, the response includes `Access-Control-Allow-Origin`
exactly when the origin is in the configured allow-list, in which case
its value is that origin (never another origin's value); otherwise the
header is omitted.  Requests without an `Origin` header instead receive
the wildcard. -/
theorem c5_amended (env origin : String) (h : origin ≠ "") :
    findHeader (corsHeaders (pickAllowOrigin env origin))
      "Access-Control-Allow-Origin" =
      if origin ∈ getAllowedOrigins env then some origin else none := by
  by_cases hm : origin ∈ getAllowedOrigins env
  · simp only [pickAllowOrigin, if_neg h, if_pos hm, corsHeaders]
    exact findHeader_with_acao origin
  · simp only [pickAllowOrigin, if_neg h, if_neg hm, corsHeaders]
    exact findHeader_corsBase_acao

/-- Witness for C5 (amended): a hardcoded origin is echoed back. -/
theorem c5_amended_witness :
    findHeader (corsHeaders (pickAllowOrigin "" "https://smes21540.github.io"))
      "Access-Control-Allow-Origin" = some "https://smes21540.github.io" := by
  rw [c5_amended "" "https://smes21540.github.io" (by decide)]
  rw [if_pos (by decide)]

/-- C10: for every configuration of `DOMAINS_ALLOWED`, a request with
no (or an empty) `Origin` header makes `pickAllowOrigin` return the
wildcard, so the response carries `Access-Control-Allow-Origin: *`
even though the empty origin is not in the allow-list. -/
theorem c10_empty_origin_wildcard (env : String) :
    pickAllowOrigin env "" = some "*" ∧
    findHeader (corsHeaders (pickAllowOrigin env ""))
      "Access-Control-Allow-Origin" = some "*" ∧
    "" ∉ getAllowedOrigins env := by
  refine ⟨rfl, ?_, empty_notin_allowed env⟩
  rw [pickAllowOrigin, if_pos rfl]
  decide

/-! ### Theorems about timeout mapping and the upload branch -/

/-- Counterexample to C6 as stated: an upload request whose upstream
call ultimately fails with an abort (timeout) error — all three
attempts throw `AbortError` — is answered with status 500, not 504. -/
theorem c6_counterexample :
    fetchWithRetry driveRetryStatuses
      [.threw abortError, .threw abortError, .threw abortError] =
      .err abortError ∧
    isAbortError abortError = true ∧
    handleUpload (fun _ => none)
      [.threw abortError, .threw abortError, .threw abortError] =
      ⟨500, jsonError "Erreur interne upload"⟩ := by
  refine ⟨by decide, by decide, by decide⟩

/-- C6 (amended): when the upstream call ultimately fails with a
thrown error, the GET path maps an abort (timeout) error to status 504
and any other error to status 500, while the POST upload path maps
every thrown error — aborts included — to status 500. -/
theorem c6_amended (outcomes : List FetchOutcome) (e : JsError)
    (parse : String → Option UploadOut)
    (h : fetchWithRetry driveRetryStatuses outcomes = .err e) :
    (isAbortError e = true → (handleDownload outcomes).status = 504) ∧
    (isAbortError e = false → (handleDownload outcomes).status = 500) ∧
    (handleUpload parse outcomes).status = 500 := by
  refine ⟨?_, ?_, ?_⟩
  · intro ha; simp [handleDownload, h, ha]
  · intro ha; simp [handleDownload, h, ha]
  · simp [handleUpload, h]

/-- Witness for C6 (amended): a download whose three attempts all abort
is answered 504; one whose attempts all fail with a non-abort network
error is answered 500. -/
theorem c6_amended_witness :
    (handleDownload [.threw abortError, .threw abortError, .threw abortError]).status
      = 504 ∧
    (handleDownload [.threw ⟨"TypeError", "TypeError: fetch failed"⟩]).status = 500 := by
  constructor
  · exact (c6_amended [.threw abortError, .threw abortError, .threw abortError]
      abortError (fun _ => none) (by decide)).1 (by decide)
  · exact (c6_amended [.threw ⟨"TypeError", "TypeError: fetch failed"⟩]
      ⟨"TypeError", "TypeError: fetch failed"⟩ (fun _ => none) (by decide)).2.1 (by decide)

/-- C9: when the upstream upload call returns a success status but a
body that does not parse as JSON, the handler still answers 200 with
the JSON body containing only `success: true` — the undefined `id` is
dropped by the serializer, so the caller gets no created-resource
identifier. -/
theorem c9_upload_unparseable (parse : String → Option UploadOut)
    (outcomes : List FetchOutcome) (r : Response)
    (h1 : fetchWithRetry driveRetryStatuses outcomes = .ret r)
    (h2 : respOk r = true)
    (h3 : parse r.body = none) :
    handleUpload parse outcomes = ⟨200, "\x7b\"success\":true\x7d"⟩ := by
  simp [handleUpload, h1, h2, h3, uploadBody, Option.getD]

/-- Witness for C9: a single attempt yielding a 200 response whose body
is not JSON produces the bare success envelope. -/
theorem c9_upload_unparseable_witness :
    handleUpload (fun _ => none) [.got ⟨200, "not json"⟩] =
      ⟨200, "\x7b\"success\":true\x7d"⟩ :=
  c9_upload_unparseable (fun _ => none) [.got ⟨200, "not json"⟩] ⟨200, "not json"⟩
    (by decide) (by decide) rfl

end SDrive
